import Mathlib

/-!
# Verification of the computer-architecture lab programs

Shallow embedding of

* `lab1/program.c` (`addNumbers`, `main`),
* `lab2/valgrind/buffer_overflow.c` (`main`),
* `lab3/frontend_bottleneck/FE_bottleneck.cpp` (class `CPUFrontendBottleneck`, `main`),

followed by the theorems that settle the specification claims `C1` .. `C10`.

Conventions of the embedding.

* A counted loop `for (int i = 0; i < n; ++i) body` is a left fold of `body` over
  `List.range n`; the loop bound is a parameter wherever a claim varies it.
* The accumulator's `+=` and `-=` are taken from an `IntArith` record, so that every routine
  is written once and runs either with exact integers (`exactInt`) or with the 32-bit
  two's-complement `int` of the machine (`int32`).
* Values produced by the environment (the random draws, the elapsed milliseconds) are
  parameters.
* Standard output is a list of lines, each line a list of characters.
-/

namespace Labs

/-! ## Integer arithmetic -/

/-- Largest value of a 32-bit signed `int`. -/
def INT_MAX : Int := 2147483647

/-- Smallest value of a 32-bit signed `int`. -/
def INT_MIN : Int := -2147483648

/-- Two's-complement reduction of an exact integer into the range of a 32-bit signed `int`. -/
def wrap32 (v : Int) : Int := (v + 2147483648) % 4294967296 - 2147483648

/-- The two compound assignments the routines apply to an `int` accumulator. -/
structure IntArith where
  /-- The value stored by `result += v`. -/
  add : Int → Int → Int
  /-- The value stored by `result -= v`. -/
  sub : Int → Int → Int

/-- Unbounded integer accumulator. -/
def exactInt : IntArith where
  add := fun a b => a + b
  sub := fun a b => a - b

/-- 32-bit signed accumulator, wrapping on overflow. The operand of `+=` and `-=` is passed
exact: it is a small multiple of the loop counter, and reducing it as well would not change
the stored value (`wrap32_add_wrap32_right`, `wrap32_sub_wrap32_right`). -/
def int32 : IntArith where
  add := fun a b => wrap32 (a + b)
  sub := fun a b => wrap32 (a - b)

/-! ## Text output -/

/-- One line of standard output, without its terminating newline. -/
abbrev Line := List Char

/-- Text written by `std::cout << v` for an integer `v`: an optional minus sign and the
decimal digits. -/
def showInt (v : Int) : List Char :=
  if v < 0 then '-' :: Nat.toDigits 10 v.natAbs else Nat.toDigits 10 v.natAbs

/-- What a routine leaves behind: the final value of its accumulator and the lines it wrote. -/
structure Run (α : Type) where
  /-- Final value of the local `result`. -/
  result : α
  /-- Lines written to standard output, in order. -/
  output : List Line

/-! ## Floating point

The arithmetic of `double` is not fixed here: the routine that uses it is written against the
operations below, and every statement about it holds for any implementation of them. -/

/-- The operations on `double` used by `complexInstructionDecode`. -/
structure DoubleArith where
  /-- The values of type `double`. -/
  F : Type
  /-- The value of a decimal literal such as `1.000001`. -/
  lit : ℚ → F
  /-- Conversion of an `int` operand to `double`. -/
  ofInt : Int → F
  /-- The sum `a + b`. -/
  add : F → F → F
  /-- The difference `a - b`. -/
  sub : F → F → F
  /-- The product `a * b`. -/
  mul : F → F → F
  /-- The quotient `a / b`. -/
  div : F → F → F
  /-- The comparison `a > b`. -/
  gt : F → F → Bool
  /-- Text written by `std::cout << x`. -/
  text : F → List Char
  /-- The text of a `double` is made of digits, a point, an exponent mark, signs, and the
  letters of `inf` and `nan`. -/
  text_chars : ∀ x c, c ∈ text x → c ∈ "0123456789.e+-infa".toList

/-- An implementation of `DoubleArith` for evaluating the model: exact rational arithmetic,
printed as the decimal digits of the absolute value of the integer part. -/
def exactDouble : DoubleArith where
  F := ℚ
  lit := fun q => q
  ofInt := fun v => (v : ℚ)
  add := fun a b => a + b
  sub := fun a b => a - b
  mul := fun a b => a * b
  div := fun a b => a / b
  gt := fun a b => decide (b < a)
  text := fun x =>
    if Int.natAbs (Int.floor x) = 0 then ['0']
    else (Nat.digits 10 (Int.natAbs (Int.floor x))).reverse.map Nat.digitChar
  text_chars := by
    intro x c hc
    simp only at hc
    split_ifs at hc
    · rw [List.mem_singleton.mp hc]
      decide
    · simp only [List.mem_map, List.mem_reverse] at hc
      obtain ⟨d, hd, rfl⟩ := hc
      have hlt : d < 10 := Nat.digits_lt_base (by norm_num) hd
      interval_cases d <;> decide

namespace CPUFrontendBottleneck

/-! ## Helper functions for instruction cache thrashing -/

def complexOperation1 (x : Int) : Int := x * 2 + 1
def complexOperation2 (x : Int) : Int := x * 3 + 2
def complexOperation3 (x : Int) : Int := x * 4 + 3
def complexOperation4 (x : Int) : Int := x * 5 + 4
def complexOperation5 (x : Int) : Int := x * 6 + 5
def complexOperation6 (x : Int) : Int := x * 7 + 6
def complexOperation7 (x : Int) : Int := x * 8 + 7
def complexOperation8 (x : Int) : Int := x * 9 + 8
def complexOperation9 (x : Int) : Int := x * 10 + 9
def complexOperation10 (x : Int) : Int := x * 11 + 10
def complexOperation11 (x : Int) : Int := x * 12 + 11
def complexOperation12 (x : Int) : Int := x * 13 + 12
def complexOperation13 (x : Int) : Int := x * 14 + 13
def complexOperation14 (x : Int) : Int := x * 15 + 14
def complexOperation15 (x : Int) : Int := x * 16 + 15
def complexOperation16 (x : Int) : Int := x * 17 + 16

/-! ## Method 1: instruction cache thrashing -/

/-- Body of the loop of `instructionCacheThrashing`: the `switch (i % 16)` statement.
The `switch` has no `default`, so a selector outside `0 .. 15` would leave `result` alone. -/
def icacheBody (A : IntArith) (result : Int) (i : Nat) : Int :=
  match i % 16 with
  | 0 => A.add result (complexOperation1 i)
  | 1 => A.add result (complexOperation2 i)
  | 2 => A.add result (complexOperation3 i)
  | 3 => A.add result (complexOperation4 i)
  | 4 => A.add result (complexOperation5 i)
  | 5 => A.add result (complexOperation6 i)
  | 6 => A.add result (complexOperation7 i)
  | 7 => A.add result (complexOperation8 i)
  | 8 => A.add result (complexOperation9 i)
  | 9 => A.add result (complexOperation10 i)
  | 10 => A.add result (complexOperation11 i)
  | 11 => A.add result (complexOperation12 i)
  | 12 => A.add result (complexOperation13 i)
  | 13 => A.add result (complexOperation14 i)
  | 14 => A.add result (complexOperation15 i)
  | 15 => A.add result (complexOperation16 i)
  | _ => result

/-- The routine `instructionCacheThrashing` with iteration count `n` (the source fixes
`n = 1000000`) and elapsed time `ms`. -/
def instructionCacheThrashing (A : IntArith) (n : Nat) (ms : Int) : Run Int :=
  let result := (List.range n).foldl (icacheBody A) 0
  { result := result
    output :=
      [ "Running instruction cache thrashing...".toList,
        "I-cache thrashing completed in ".toList ++ showInt ms ++ "ms".toList,
        "Result: ".toList ++ showInt result,
        [] ] }

/-! ## Method 2: branch misprediction storm -/

/-- Body of the loop of `branchMispredictionStorm`; `random_val` is the value `dis(gen)`
returned at this step (`dis` is uniform on `0 .. 1`). -/
def branchBody (A : IntArith) (random_val : Int) (result : Int) (i : Nat) : Int :=
  if random_val ≠ 0 then
    if i % 3 = 0 then A.add result ((i : Int) * 2)
    else if i % 5 = 0 then A.add result ((i : Int) * 3)
    else A.add result (i : Int)
  else
    if i % 7 = 0 then A.sub result (i : Int)
    else if i % 11 = 0 then A.sub result ((i : Int) * 2)
    else A.add result ((i / 2 : Nat) : Int)

/-- The routine `branchMispredictionStorm` with iteration count `n` (the source fixes
`n = 1000000`); `dis i` is the value drawn at step `i`, `ms` the elapsed time. -/
def branchMispredictionStorm (A : IntArith) (n : Nat) (dis : Nat → Int) (ms : Int) : Run Int :=
  let result := (List.range n).foldl (fun result i => branchBody A (dis i) result i) 0
  { result := result
    output :=
      [ "Running branch misprediction storm...".toList,
        "Branch misprediction storm completed in ".toList ++ showInt ms ++ "ms".toList,
        "Result: ".toList ++ showInt result,
        [] ] }

/-! ## Method 3: complex instruction decode pressure -/

/-- The local table `temp_array` of `complexInstructionDecode`. -/
def temp_array : Fin 8 → Int := ![1, 2, 3, 4, 5, 6, 7, 8]

/-- Body of the loop of `complexInstructionDecode`. -/
def decodeBody (D : DoubleArith) (result : D.F) (i : Nat) : D.F :=
  let result := D.add (D.mul result (D.lit 1.000001)) (D.lit 0.000001)
  let result := D.sub (D.div result (D.lit 1.000001)) (D.lit 0.000001)
  let result := D.add result (D.ofInt (temp_array ⟨i % 8, Nat.mod_lt i (by decide)⟩))
  if D.gt result (D.ofInt 1000000) then D.div result (D.ofInt 2) else D.mul result (D.lit 1.1)

/-- The routine `complexInstructionDecode` with iteration count `n` (the source fixes
`n = 500000`) and elapsed time `ms`. -/
def complexInstructionDecode (D : DoubleArith) (n : Nat) (ms : Int) : Run D.F :=
  let result := (List.range n).foldl (decodeBody D) (D.lit 1.0)
  { result := result
    output :=
      [ "Running complex instruction decode pressure...".toList,
        "Complex decode pressure completed in ".toList ++ showInt ms ++ "ms".toList,
        "Result: ".toList ++ D.text result,
        [] ] }

/-! ## Helper functions for indirect branch stress -/

def simpleFunc1 (x : Int) : Int := x + 1
def simpleFunc2 (x : Int) : Int := x + 2
def simpleFunc3 (x : Int) : Int := x + 3
def simpleFunc4 (x : Int) : Int := x + 4
def simpleFunc5 (x : Int) : Int := x + 5
def simpleFunc6 (x : Int) : Int := x + 6
def simpleFunc7 (x : Int) : Int := x + 7
def simpleFunc8 (x : Int) : Int := x + 8

/-! ## Method 4: indirect branch predictor stress -/

/-- The array of function pointers of `indirectBranchStress`. -/
def functions : List (Int → Int) :=
  [simpleFunc1, simpleFunc2, simpleFunc3, simpleFunc4,
   simpleFunc5, simpleFunc6, simpleFunc7, simpleFunc8]

/-- Body of the loop of `indirectBranchStress`; `func_index` is the value `dis(gen)` returned
at this step. The call through `functions[func_index]` is defined only inside the table:
outside it the step has no result. -/
def indirectBody (A : IntArith) (func_index : Int) (result : Int) (i : Nat) : Option Int :=
  if 0 ≤ func_index then
    match functions[func_index.toNat]? with
    | some f => some (A.add result (f (i : Int)))
    | none => none
  else none

/-- The routine `indirectBranchStress` with iteration count `n` (the source fixes
`n = 1000000`); `dis i` is the index drawn at step `i`, `ms` the elapsed time. The routine has
a result when every table lookup is inside the table. -/
def indirectBranchStress (A : IntArith) (n : Nat) (dis : Nat → Int) (ms : Int) :
    Option (Run Int) :=
  match (List.range n).foldlM (fun result i => indirectBody A (dis i) result i) 0 with
  | some result =>
    some
      { result := result
        output :=
          [ "Running indirect branch stress...".toList,
            "Indirect branch stress completed in ".toList ++ showInt ms ++ "ms".toList,
            "Result: ".toList ++ showInt result,
            [] ] }
  | none => none

end CPUFrontendBottleneck

/-! ## The driver `main` of `FE_bottleneck.cpp` -/

namespace FEBottleneck

open CPUFrontendBottleneck

/-- What the environment supplies to one run of the driver; `r` counts the repetitions of
the outer loop. -/
structure Env where
  /-- Elapsed milliseconds measured in repetition `r` for routine `j` (`0 .. 3`). -/
  elapsed : Nat → Nat → Int
  /-- Value drawn from `dis(0, 1)` in repetition `r` at step `i` of the branch storm. -/
  coin : Nat → Nat → Int
  /-- Value drawn from `dis(0, 7)` in repetition `r` at step `i` of the indirect stress. -/
  index : Nat → Nat → Int
  /-- The distribution `dis(0, 7)` returns values between 0 and 7. -/
  index_range : ∀ r i, 0 ≤ index r i ∧ index r i ≤ 7

/-- The iteration counts of the four routines, in the order in which `main` calls them. -/
structure Counts where
  /-- Iteration count of `instructionCacheThrashing`. -/
  icache : Nat
  /-- Iteration count of `branchMispredictionStorm`. -/
  branch : Nat
  /-- Iteration count of `complexInstructionDecode`. -/
  decode : Nat
  /-- Iteration count of `indirectBranchStress`. -/
  indirect : Nat

/-- Body of the outer loop of `main`: the four routines in order, appending to the output
written so far. -/
def mainBody (k : Counts) (D : DoubleArith) (env : Env) (out : List Line) (r : Nat) :
    Option (List Line) :=
  let out := out ++ (instructionCacheThrashing int32 k.icache (env.elapsed r 0)).output
  let out := out ++ (branchMispredictionStorm int32 k.branch (env.coin r) (env.elapsed r 1)).output
  let out := out ++ (complexInstructionDecode D k.decode (env.elapsed r 2)).output
  match indirectBranchStress int32 k.indirect (env.index r) (env.elapsed r 3) with
  | some run => some (out ++ run.output)
  | none => none

/-- The lines a run of `main` writes to standard output, with the repetition count of the
outer loop and the iteration counts of the routines as parameters. -/
def mainWith (reps : Nat) (k : Counts) (D : DoubleArith) (env : Env) : Option (List Line) :=
  let out : List Line :=
    [ "CPU Frontend Bottleneck Generator".toList,
      "==================================".toList,
      [] ]
  match (List.range reps).foldlM (mainBody k D env) out with
  | some out =>
    some (out ++
      [ "All frontend bottleneck tests completed!".toList,
        "Monitor CPU usage and performance counters to observe the effects.".toList ])
  | none => none

/-- The iteration counts written in the source. -/
def sourceCounts : Counts where
  icache := 1000000
  branch := 1000000
  decode := 500000
  indirect := 1000000

/-- The lines `main` writes to standard output: the outer loop runs 100 times. -/
def main (D : DoubleArith) (env : Env) : Option (List Line) :=
  mainWith 100 sourceCounts D env

/-- An environment for evaluating the driver: repetition `r` reports `r + j` milliseconds
for routine `j`, and the draws of step `i` are `i mod 2` and `i mod 8`. -/
def sampleEnv : Env where
  elapsed := fun r j => (r : Int) + (j : Int)
  coin := fun _ i => ((i % 2 : Nat) : Int)
  index := fun _ i => ((i % 8 : Nat) : Int)
  index_range := by
    intro r i
    show 0 ≤ ((i % 8 : Nat) : Int) ∧ ((i % 8 : Nat) : Int) ≤ 7
    omega

end FEBottleneck

/-! ## `lab1/program.c` -/

namespace Program

/-- The function `addNumbers`: `for(i = 1; i <= 10; i++) sum += i;`. -/
def addNumbers : Int :=
  (List.range' 1 10).foldl (fun sum i => sum + (i : Int)) 0

/-- The lines `main` writes to standard output. -/
def main : List Line :=
  let result := addNumbers
  [ "Sum of numbers 1 to 10 plus 5 is: ".toList ++ showInt result ]

end Program

/-! ## `lab2/valgrind/buffer_overflow.c` -/

namespace BufferOverflow

/-- A heap block: one cell per byte, `none` while the byte has not been written. -/
abbrev Block := List (Option Char)

/-- The block returned by `malloc(size)`. -/
def malloc (size : Nat) : Block := List.replicate size none

/-- The assignment `buffer[i] = c`: inside the block it updates the cell, outside it the
write fails and reports the offending index. -/
def store (buffer : Block) (w : Nat × Char) : Except Nat Block :=
  if w.1 < buffer.length then .ok (buffer.set w.1 (some w.2)) else .error w.1

/-- The assignments issued by the loop `for (int i = 0; i <= 15; i++)
buffer[i] = 'A' + (i % 26);`, in order, as pairs of index and character. -/
def fillWrites : List (Nat × Char) :=
  (List.range 16).map (fun i => (i, Char.ofNat (65 + i % 26)))

/-- The fill loop of `main` run on the block `malloc(10)`. -/
def fill : Except Nat Block :=
  fillWrites.foldlM store (malloc 10)

end BufferOverflow

/-! ## Forms used by the specification -/

namespace Spec

/-- The adjustment the specification gives for step `i` of the branch storm under the draw
`b`: for a true draw `2 * i` if 3 divides `i`, else `3 * i` if 5 divides `i`, else `i`; for a
false draw `-i` if 7 divides `i`, else `-2 * i` if 11 divides `i`, else `i div 2`. -/
def adj (i : Nat) (b : Bool) : Int :=
  if b then
    if 3 ∣ i then 2 * (i : Int) else if 5 ∣ i then 3 * (i : Int) else (i : Int)
  else
    if 7 ∣ i then -(i : Int) else if 11 ∣ i then -2 * (i : Int) else (i : Int) / 2

/-- The draw sequence `[0, 1, 2, 3, 4, 5, 6, 7]` of the indirect-branch scenario, as the
value drawn at each step. -/
def scenarioIndices (i : Nat) : Int := ([0, 1, 2, 3, 4, 5, 6, 7] : List Int).getD i 0

/-- A line "containing `completed in`". -/
def isCompleted (l : Line) : Bool := decide ("completed in".toList <:+: l)

/-- A line "starting with `Result: `". -/
def isResult (l : Line) : Bool := "Result: ".toList.isPrefixOf l

/-- The four completion messages of repetition `r` of the driver, in the order
`instructionCacheThrashing`, `branchMispredictionStorm`, `complexInstructionDecode`,
`indirectBranchStress`. -/
def completionCycle (env : FEBottleneck.Env) (r : Nat) : List Line :=
  [ "I-cache thrashing completed in ".toList ++ showInt (env.elapsed r 0) ++ "ms".toList,
    "Branch misprediction storm completed in ".toList ++ showInt (env.elapsed r 1)
      ++ "ms".toList,
    "Complex decode pressure completed in ".toList ++ showInt (env.elapsed r 2) ++ "ms".toList,
    "Indirect branch stress completed in ".toList ++ showInt (env.elapsed r 3) ++ "ms".toList ]

end Spec

end Labs

/-! # Theorems -/

namespace Labs

open CPUFrontendBottleneck FEBottleneck

/-! ### 32-bit arithmetic -/

theorem wrap32_add_wrap32 (a b : Int) : wrap32 (wrap32 a + b) = wrap32 (a + b) := by
  unfold wrap32; omega

theorem wrap32_add_wrap32_right (a b : Int) : wrap32 (a + wrap32 b) = wrap32 (a + b) := by
  unfold wrap32; omega

theorem wrap32_sub_wrap32_right (a b : Int) : wrap32 (a - wrap32 b) = wrap32 (a - b) := by
  unfold wrap32; omega

theorem wrap32_of_inRange (v : Int) (h1 : INT_MIN ≤ v) (h2 : v ≤ INT_MAX) : wrap32 v = v := by
  unfold INT_MIN at h1; unfold INT_MAX at h2; unfold wrap32; omega

/-! ### Instruction cache thrashing -/

theorem icacheBody_eq (A : IntArith) (result : Int) (i : Nat) :
    icacheBody A result i
      = A.add result ((i : Int) * (((i % 16 : Nat) : Int) + 2) + (((i % 16 : Nat) : Int) + 1)) := by
  have h : i % 16 < 16 := Nat.mod_lt i (by decide)
  unfold icacheBody
  generalize i % 16 = r at h
  interval_cases r <;>
    simp only [complexOperation1, complexOperation2, complexOperation3, complexOperation4,
      complexOperation5, complexOperation6, complexOperation7, complexOperation8,
      complexOperation9, complexOperation10, complexOperation11, complexOperation12,
      complexOperation13, complexOperation14, complexOperation15, complexOperation16] <;>
    norm_num

theorem instructionCacheThrashing_succ (A : IntArith) (n : Nat) (ms : Int) :
    (instructionCacheThrashing A (n + 1) ms).result
      = icacheBody A (instructionCacheThrashing A n ms).result n := by
  simp [instructionCacheThrashing, List.range_succ, List.foldl_append]

theorem instructionCacheThrashing_add (A : IntArith) (n k : Nat) (ms : Int) :
    (instructionCacheThrashing A (n + k) ms).result
      = ((List.range k).map (fun j => n + j)).foldl (icacheBody A)
          (instructionCacheThrashing A n ms).result := by
  simp [instructionCacheThrashing, List.range_add, List.foldl_append]

theorem range_sixteen : List.range 16 = [0, 1, 2, 3, 4, 5, 6, 7, 8, 9, 10, 11, 12, 13, 14, 15] := by
  decide

theorem instructionCacheThrashing_block (m : Nat) (ms : Int) :
    (instructionCacheThrashing exactInt (16 * m) ms).result
      = 1216 * (m : Int) * ((m : Int) - 1) + 1616 * (m : Int) := by
  induction m with
  | zero => simp [instructionCacheThrashing]
  | succ m ih =>
    rw [Nat.mul_succ, instructionCacheThrashing_add, ih, range_sixteen]
    simp only [List.map, List.foldl, icacheBody_eq, exactInt, Nat.mul_add_mod, Nat.add_zero,
      Nat.mul_mod_right]
    push_cast
    ring

theorem instructionCacheThrashing_int32 (n : Nat) (ms : Int) :
    (instructionCacheThrashing int32 n ms).result
      = wrap32 (instructionCacheThrashing exactInt n ms).result := by
  induction n with
  | zero => simp [instructionCacheThrashing, wrap32]
  | succ n ih =>
    rw [instructionCacheThrashing_succ, instructionCacheThrashing_succ, icacheBody_eq,
      icacheBody_eq, ih]
    simp only [int32, exactInt]
    exact wrap32_add_wrap32 _ _

theorem icache_million (ms : Int) :
    (instructionCacheThrashing exactInt 1000000 ms).result = 4750025000000 := by
  have h := instructionCacheThrashing_block 62500 ms
  norm_num at h
  exact h

theorem icache_21261 (ms : Int) :
    (instructionCacheThrashing exactInt 21261 ms).result = 2147260033 := by
  have h := instructionCacheThrashing_block 1328 ms
  have e : 21261 = 16 * 1328 + 13 := by norm_num
  rw [e, instructionCacheThrashing_add, h]
  simp [List.range_succ, icacheBody_eq, exactInt]

/-! ### Branch misprediction storm -/

theorem branchMispredictionStorm_succ (A : IntArith) (n : Nat) (dis : Nat → Int) (ms : Int) :
    (branchMispredictionStorm A (n + 1) dis ms).result
      = branchBody A (dis n) (branchMispredictionStorm A n dis ms).result n := by
  simp [branchMispredictionStorm, List.range_succ, List.foldl_append]

theorem branchBody_exact (random_val result : Int) (i : Nat) :
    branchBody exactInt random_val result i
      = result + Spec.adj i (decide (random_val ≠ 0)) := by
  unfold branchBody Spec.adj
  simp only [exactInt, Nat.dvd_iff_mod_eq_zero]
  by_cases hb : random_val = 0
  · simp only [hb, ne_eq, not_true_eq_false, if_false, decide_False, Bool.false_eq_true]
    split_ifs
    · ring
    · ring
    · norm_cast
  · simp only [hb, ne_eq, not_false_eq_true, if_true, decide_True]
    split_ifs <;> ring

theorem branchMispredictionStorm_congr (A : IntArith) (n : Nat) (dis dis2 : Nat → Int)
    (ms ms2 : Int) (h : ∀ i, i < n → dis2 i = dis i) :
    (branchMispredictionStorm A n dis2 ms2).result
      = (branchMispredictionStorm A n dis ms).result := by
  induction n with
  | zero => simp [branchMispredictionStorm]
  | succ n ih =>
    rw [branchMispredictionStorm_succ, branchMispredictionStorm_succ,
      ih (fun i hi => h i (Nat.lt_succ_of_lt hi)), h n (Nat.lt_succ_self n)]

/-! ### Indirect branch stress -/

theorem indirectBody_inRange (A : IntArith) (func_index result : Int) (i : Nat)
    (h0 : 0 ≤ func_index) (h7 : func_index ≤ 7) :
    indirectBody A func_index result i = some (A.add result ((i : Int) + (func_index + 1))) := by
  interval_cases func_index <;>
    simp [indirectBody, functions, simpleFunc1, simpleFunc2, simpleFunc3, simpleFunc4,
      simpleFunc5, simpleFunc6, simpleFunc7, simpleFunc8]

theorem indirect_fold (A : IntArith) (n : Nat) (dis : Nat → Int)
    (h : ∀ i, i < n → 0 ≤ dis i ∧ dis i ≤ 7) :
    (List.range n).foldlM (fun result i => indirectBody A (dis i) result i) 0
      = some ((List.range n).foldl
          (fun (result : Int) (i : Nat) => A.add result ((i : Int) + (dis i + 1))) 0) := by
  induction n with
  | zero => rfl
  | succ n ih =>
    have hn := h n (Nat.lt_succ_self n)
    rw [List.range_succ, List.foldlM_append, ih (fun i hi => h i (Nat.lt_succ_of_lt hi)),
      List.foldl_append]
    simp [indirectBody_inRange A _ _ n hn.1 hn.2]

theorem indirect_exact_sum (n : Nat) (dis : Nat → Int) :
    2 * (List.range n).foldl
        (fun (result : Int) (i : Nat) => exactInt.add result ((i : Int) + (dis i + 1))) 0
      = (n : Int) * ((n : Int) + 1) + 2 * ∑ i ∈ Finset.range n, dis i := by
  induction n with
  | zero => simp
  | succ n ih =>
    rw [List.range_succ, List.foldl_append, Finset.sum_range_succ]
    simp only [List.foldl, exactInt] at ih ⊢
    push_cast
    linarith

theorem indirectBranchStress_result (A : IntArith) (n : Nat) (dis : Nat → Int) (ms : Int)
    (h : ∀ i, i < n → 0 ≤ dis i ∧ dis i ≤ 7) :
    ∃ run, indirectBranchStress A n dis ms = some run ∧
      run.result = (List.range n).foldl
        (fun (result : Int) (i : Nat) => A.add result ((i : Int) + (dis i + 1))) 0 := by
  unfold indirectBranchStress
  rw [indirect_fold A n dis h]
  exact ⟨_, rfl, rfl⟩

/-- An index outside the table leaves `indirectBranchStress` without a result. -/
theorem indirectBranchStress_outside (ms : Int) :
    indirectBranchStress exactInt 1 (fun _ => 8) ms = none
    ∧ indirectBranchStress exactInt 1 (fun _ => -1) ms = none := by
  constructor <;> rfl

/-! ### Text output -/

theorem digitChar_mem (d : Nat) (h : d < 10) : Nat.digitChar d ∈ "0123456789".toList := by
  interval_cases d <;> decide

theorem toDigitsCore_chars (fuel : Nat) : ∀ (n : Nat) (ds : List Char),
    (∀ c, c ∈ ds → c ∈ "0123456789".toList) →
    ∀ c, c ∈ Nat.toDigitsCore 10 fuel n ds → c ∈ "0123456789".toList := by
  induction fuel with
  | zero => intro n ds hds c hc; exact hds c hc
  | succ fuel ih =>
    intro n ds hds c hc
    have hd : ∀ c, c ∈ Nat.digitChar (n % 10) :: ds → c ∈ "0123456789".toList := by
      intro c hc
      rcases List.mem_cons.mp hc with h | h
      · rw [h]; exact digitChar_mem _ (Nat.mod_lt n (by decide))
      · exact hds c h
    unfold Nat.toDigitsCore at hc
    by_cases hz : n / 10 = 0
    · simp only [hz, if_true] at hc
      exact hd c hc
    · simp only [hz, if_false] at hc
      exact ih _ _ hd c hc

theorem showInt_chars (v : Int) (c : Char) (hc : c ∈ showInt v) :
    c ∈ "-0123456789".toList := by
  have hdig : ∀ c, c ∈ Nat.toDigits 10 v.natAbs → c ∈ "0123456789".toList :=
    toDigitsCore_chars _ _ [] (fun c h => absurd h (List.not_mem_nil c))
  have hsub : ∀ c, c ∈ "0123456789".toList → c ∈ "-0123456789".toList := by
    intro c h
    exact List.mem_cons_of_mem _ h
  unfold showInt at hc
  split_ifs at hc
  · rcases List.mem_cons.mp hc with h | h
    · rw [h]; decide
    · exact hsub c (hdig c h)
  · exact hsub c (hdig c hc)

theorem isCompleted_of_split (pre post l : Line)
    (h : l = pre ++ "completed in".toList ++ post) : Spec.isCompleted l = true := by
  unfold Spec.isCompleted
  rw [decide_eq_true_iff]
  exact ⟨pre, post, h.symm⟩

theorem isCompleted_of_missing (ch : Char) (hch : ch ∈ "completed in".toList) (l : Line)
    (h : ch ∉ l) : Spec.isCompleted l = false := by
  unfold Spec.isCompleted
  rw [decide_eq_false_iff_not]
  intro hin
  exact h (hin.subset hch)

theorem isCompleted_of_no_c (l : Line) (h : 'c' ∉ l) : Spec.isCompleted l = false :=
  isCompleted_of_missing 'c' (by decide) l h

theorem isCompleted_resultInt (v : Int) :
    Spec.isCompleted ("Result: ".toList ++ showInt v) = false := by
  apply isCompleted_of_no_c
  intro h
  rcases List.mem_append.mp h with h | h
  · exact absurd h (by decide)
  · exact absurd (showInt_chars v _ h) (by decide)

theorem isCompleted_resultDouble (D : DoubleArith) (x : D.F) :
    Spec.isCompleted ("Result: ".toList ++ D.text x) = false := by
  apply isCompleted_of_no_c
  intro h
  rcases List.mem_append.mp h with h | h
  · exact absurd h (by decide)
  · exact absurd (D.text_chars x _ h) (by decide)

theorem isResult_result (x : List Char) : Spec.isResult ("Result: ".toList ++ x) = true := by
  simp [Spec.isResult]

theorem filter_second (p : Line → Bool) (a b c d : Line)
    (ha : p a = false) (hb : p b = true) (hc : p c = false) (hd : p d = false) :
    [a, b, c, d].filter p = [b] := by
  simp [List.filter, ha, hb, hc, hd]

theorem filter_third (p : Line → Bool) (a b c d : Line)
    (ha : p a = false) (hb : p b = false) (hc : p c = true) (hd : p d = false) :
    [a, b, c, d].filter p = [c] := by
  simp [List.filter, ha, hb, hc, hd]

theorem isCompleted_nil : Spec.isCompleted [] = false := by decide

theorem isResult_nil : Spec.isResult [] = false := by decide

theorem instructionCacheThrashing_completed (A : IntArith) (n : Nat) (ms : Int) :
    (instructionCacheThrashing A n ms).output.filter Spec.isCompleted
      = ["I-cache thrashing completed in ".toList ++ showInt ms ++ "ms".toList] :=
  filter_second _ _ _ _ _
    (by decide)
    (isCompleted_of_split "I-cache thrashing ".toList (' ' :: (showInt ms ++ "ms".toList)) _ rfl)
    (isCompleted_resultInt _)
    isCompleted_nil

theorem instructionCacheThrashing_isResult (A : IntArith) (n : Nat) (ms : Int) :
    (instructionCacheThrashing A n ms).output.filter Spec.isResult
      = ["Result: ".toList ++ showInt (instructionCacheThrashing A n ms).result] :=
  filter_third _ _ _ _ _
    (by decide)
    rfl
    (isResult_result _)
    isResult_nil

theorem branchMispredictionStorm_completed (A : IntArith) (n : Nat) (dis : Nat → Int) (ms : Int) :
    (branchMispredictionStorm A n dis ms).output.filter Spec.isCompleted
      = ["Branch misprediction storm completed in ".toList ++ showInt ms ++ "ms".toList] :=
  filter_second _ _ _ _ _
    (by decide)
    (isCompleted_of_split "Branch misprediction storm ".toList
      (' ' :: (showInt ms ++ "ms".toList)) _ rfl)
    (isCompleted_resultInt _)
    isCompleted_nil

theorem branchMispredictionStorm_isResult (A : IntArith) (n : Nat) (dis : Nat → Int) (ms : Int) :
    (branchMispredictionStorm A n dis ms).output.filter Spec.isResult
      = ["Result: ".toList ++ showInt (branchMispredictionStorm A n dis ms).result] :=
  filter_third _ _ _ _ _
    (by decide)
    rfl
    (isResult_result _)
    isResult_nil

theorem complexInstructionDecode_completed (D : DoubleArith) (n : Nat) (ms : Int) :
    (complexInstructionDecode D n ms).output.filter Spec.isCompleted
      = ["Complex decode pressure completed in ".toList ++ showInt ms ++ "ms".toList] :=
  filter_second _ _ _ _ _
    (by decide)
    (isCompleted_of_split "Complex decode pressure ".toList
      (' ' :: (showInt ms ++ "ms".toList)) _ rfl)
    (isCompleted_resultDouble D _)
    isCompleted_nil

theorem complexInstructionDecode_isResult (D : DoubleArith) (n : Nat) (ms : Int) :
    (complexInstructionDecode D n ms).output.filter Spec.isResult
      = ["Result: ".toList ++ D.text (complexInstructionDecode D n ms).result] :=
  filter_third _ _ _ _ _
    (by decide)
    rfl
    (isResult_result _)
    isResult_nil

theorem indirectBranchStress_some (A : IntArith) (n : Nat) (dis : Nat → Int) (ms : Int)
    (h : ∀ i, i < n → 0 ≤ dis i ∧ dis i ≤ 7) :
    ∃ result, indirectBranchStress A n dis ms = some
      { result := result
        output :=
          [ "Running indirect branch stress...".toList,
            "Indirect branch stress completed in ".toList ++ showInt ms ++ "ms".toList,
            "Result: ".toList ++ showInt result,
            [] ] } := by
  unfold indirectBranchStress
  rw [indirect_fold A n dis h]
  exact ⟨_, rfl⟩

theorem indirect_completed (ms result : Int) :
    [ "Running indirect branch stress...".toList,
      "Indirect branch stress completed in ".toList ++ showInt ms ++ "ms".toList,
      "Result: ".toList ++ showInt result,
      [] ].filter Spec.isCompleted
      = ["Indirect branch stress completed in ".toList ++ showInt ms ++ "ms".toList] :=
  filter_second _ _ _ _ _
    (by decide)
    (isCompleted_of_split "Indirect branch stress ".toList
      (' ' :: (showInt ms ++ "ms".toList)) _ rfl)
    (isCompleted_resultInt _)
    isCompleted_nil

theorem indirect_isResult (ms result : Int) :
    [ "Running indirect branch stress...".toList,
      "Indirect branch stress completed in ".toList ++ showInt ms ++ "ms".toList,
      "Result: ".toList ++ showInt result,
      [] ].filter Spec.isResult
      = ["Result: ".toList ++ showInt result] :=
  filter_third _ _ _ _ _
    (by decide)
    rfl
    (isResult_result _)
    isResult_nil

/-! ### The driver -/

theorem mainBody_some (k : Counts) (D : DoubleArith) (env : Env) (out : List Line) (r : Nat) :
    ∃ out2, mainBody k D env out r = some (out ++ out2)
      ∧ out2.filter Spec.isCompleted = Spec.completionCycle env r
      ∧ (out2.filter Spec.isResult).length = 4 := by
  obtain ⟨v, hv⟩ := indirectBranchStress_some int32 k.indirect (env.index r) (env.elapsed r 3)
    (fun i _ => env.index_range r i)
  refine ⟨(instructionCacheThrashing int32 k.icache (env.elapsed r 0)).output
      ++ (branchMispredictionStorm int32 k.branch (env.coin r) (env.elapsed r 1)).output
      ++ (complexInstructionDecode D k.decode (env.elapsed r 2)).output
      ++ [ "Running indirect branch stress...".toList,
            "Indirect branch stress completed in ".toList ++ showInt (env.elapsed r 3)
              ++ "ms".toList,
            "Result: ".toList ++ showInt v,
            [] ], ?_, ?_, ?_⟩
  · rw [mainBody, hv]
    simp only [List.append_assoc]
  · rw [List.filter_append, List.filter_append, List.filter_append,
      instructionCacheThrashing_completed, branchMispredictionStorm_completed,
      complexInstructionDecode_completed, indirect_completed]
    rfl
  · rw [List.filter_append, List.filter_append, List.filter_append,
      instructionCacheThrashing_isResult, branchMispredictionStorm_isResult,
      complexInstructionDecode_isResult, indirect_isResult]
    rfl

theorem main_loop (k : Counts) (D : DoubleArith) (env : Env) (out0 : List Line) (reps : Nat) :
    ∃ out, (List.range reps).foldlM (mainBody k D env) out0 = some out
      ∧ out.filter Spec.isCompleted
          = out0.filter Spec.isCompleted ++ (List.range reps).flatMap (Spec.completionCycle env)
      ∧ (out.filter Spec.isResult).length = (out0.filter Spec.isResult).length + 4 * reps := by
  induction reps with
  | zero => exact ⟨out0, rfl, by simp, by simp⟩
  | succ reps ih =>
    obtain ⟨out, hout, hc, hr⟩ := ih
    obtain ⟨out2, hbody, hc2, hr2⟩ := mainBody_some k D env out reps
    refine ⟨out ++ out2, ?_, ?_, ?_⟩
    · rw [List.range_succ, List.foldlM_append, hout]
      simp [hbody]
    · rw [List.filter_append, hc, hc2, List.range_succ, List.flatMap_append]
      simp
    · rw [List.filter_append, List.length_append, hr, hr2]
      ring

theorem footer_completed :
    List.filter Spec.isCompleted
      [ "All frontend bottleneck tests completed!".toList,
        "Monitor CPU usage and performance counters to observe the effects.".toList ]
      = [] := by
  have h1 : Spec.isCompleted "All frontend bottleneck tests completed!".toList = false := by
    decide
  have h2 : Spec.isCompleted
      "Monitor CPU usage and performance counters to observe the effects.".toList = false :=
    isCompleted_of_missing 'l' (by decide) _ (by decide)
  simp only [List.filter, h1, h2]

theorem length_completionCycles (env : FEBottleneck.Env) (reps : Nat) :
    ((List.range reps).flatMap (Spec.completionCycle env)).length = 4 * reps := by
  induction reps with
  | zero => rfl
  | succ reps ih =>
    rw [List.range_succ, List.flatMap_append, List.length_append, ih]
    simp [Spec.completionCycle]
    ring

theorem mainWith_some (reps : Nat) (k : Counts) (D : DoubleArith) (env : Env) :
    ∃ out, mainWith reps k D env = some out
      ∧ out.filter Spec.isCompleted = (List.range reps).flatMap (Spec.completionCycle env)
      ∧ (out.filter Spec.isResult).length = 4 * reps := by
  obtain ⟨out, hout, hc, hr⟩ := main_loop k D env
    [ "CPU Frontend Bottleneck Generator".toList,
      "==================================".toList,
      [] ] reps
  have hc0 : List.filter Spec.isCompleted
      [ "CPU Frontend Bottleneck Generator".toList,
        "==================================".toList,
        [] ] = [] := by decide
  have hr0 : List.filter Spec.isResult
      [ "CPU Frontend Bottleneck Generator".toList,
        "==================================".toList,
        [] ] = [] := by decide
  have hr1 : List.filter Spec.isResult
      [ "All frontend bottleneck tests completed!".toList,
        "Monitor CPU usage and performance counters to observe the effects.".toList ]
      = [] := by decide
  rw [hc0, List.nil_append] at hc
  rw [hr0, List.length_nil, Nat.zero_add] at hr
  refine ⟨out ++
      [ "All frontend bottleneck tests completed!".toList,
        "Monitor CPU usage and performance counters to observe the effects.".toList ],
      ?_, ?_, ?_⟩
  · rw [mainWith, hout]
  · rw [List.filter_append, footer_completed, List.append_nil, hc]
  · rw [List.filter_append, hr1, List.append_nil, hr]

/-- The text of the literal 1.0 in the evaluation instance. -/
theorem exactDouble_text_one : exactDouble.text (exactDouble.lit 1.0) = ['1'] := by
  have h : (Int.floor (1.0 : ℚ)) = 1 := by norm_num
  show (if Int.natAbs (Int.floor (1.0 : ℚ)) = 0 then ['0']
    else (Nat.digits 10 (Int.natAbs (Int.floor (1.0 : ℚ)))).reverse.map Nat.digitChar) = ['1']
  rw [h]
  have hd : Nat.digits 10 (Int.natAbs 1) = [1] := by norm_num
  rw [hd]
  rfl

set_option maxRecDepth 4096 in
/-- One repetition of the driver on the sample environment, with iteration counts 16, 4, 0
and 8: the complete output. -/
theorem mainWith_sample :
    mainWith 1 { icache := 16, branch := 4, decode := 0, indirect := 8 } exactDouble sampleEnv
      = some
        [ "CPU Frontend Bottleneck Generator".toList,
          "==================================".toList,
          "".toList,
          "Running instruction cache thrashing...".toList,
          "I-cache thrashing completed in 0ms".toList,
          "Result: 1616".toList,
          "".toList,
          "Running branch misprediction storm...".toList,
          "Branch misprediction storm completed in 1ms".toList,
          "Result: 8".toList,
          "".toList,
          "Running complex instruction decode pressure...".toList,
          "Complex decode pressure completed in 2ms".toList,
          "Result: 1".toList,
          "".toList,
          "Running indirect branch stress...".toList,
          "Indirect branch stress completed in 3ms".toList,
          "Result: 64".toList,
          "".toList,
          "All frontend bottleneck tests completed!".toList,
          "Monitor CPU usage and performance counters to observe the effects.".toList ] := by
  have key : mainWith 1 { icache := 16, branch := 4, decode := 0, indirect := 8 } exactDouble
      sampleEnv
      = some
        [ "CPU Frontend Bottleneck Generator".toList,
          "==================================".toList,
          "".toList,
          "Running instruction cache thrashing...".toList,
          "I-cache thrashing completed in 0ms".toList,
          "Result: 1616".toList,
          "".toList,
          "Running branch misprediction storm...".toList,
          "Branch misprediction storm completed in 1ms".toList,
          "Result: 8".toList,
          "".toList,
          "Running complex instruction decode pressure...".toList,
          "Complex decode pressure completed in 2ms".toList,
          "Result: ".toList ++ exactDouble.text (exactDouble.lit 1.0),
          "".toList,
          "Running indirect branch stress...".toList,
          "Indirect branch stress completed in 3ms".toList,
          "Result: 64".toList,
          "".toList,
          "All frontend bottleneck tests completed!".toList,
          "Monitor CPU usage and performance counters to observe the effects.".toList ] := rfl
  rw [key, exactDouble_text_one]
  rfl

/-! ## The claims -/

/-- C1: with iteration count 16 and the accumulator starting at 0, the final accumulator of
`instructionCacheThrashing` is the sum of the sixteen per-case transforms applied to the
inputs 0 .. 15, and that sum is 1616; the 32-bit accumulator holds the same value. -/
theorem C1_icache_sixteen (ms : Int) :
    (instructionCacheThrashing exactInt 16 ms).result
        = (complexOperation1 0 + complexOperation2 1 + complexOperation3 2
          + complexOperation4 3 + complexOperation5 4 + complexOperation6 5
          + complexOperation7 6 + complexOperation8 7 + complexOperation9 8
          + complexOperation10 9 + complexOperation11 10 + complexOperation12 11
          + complexOperation13 12 + complexOperation14 13 + complexOperation15 14
          + complexOperation16 15)
    ∧ (complexOperation1 0 + complexOperation2 1 + complexOperation3 2
          + complexOperation4 3 + complexOperation5 4 + complexOperation6 5
          + complexOperation7 6 + complexOperation8 7 + complexOperation9 8
          + complexOperation10 9 + complexOperation11 10 + complexOperation12 11
          + complexOperation13 12 + complexOperation14 13 + complexOperation15 14
          + complexOperation16 15) = 1616
    ∧ (instructionCacheThrashing int32 16 ms).result = 1616 := by
  refine ⟨?_, ?_, ?_⟩
  · rfl
  · decide
  · rfl

/-- C2: with iteration count 8 and the drawn indices 0, 1, .., 7 in that order, the final
accumulator of `indirectBranchStress` is the sum over k of the function at table index k
applied to k, the function at table index k being `x + (k + 1)`; that sum is 64. -/
theorem C2_indirect_eight (ms : Int) :
    (indirectBranchStress exactInt 8 Spec.scenarioIndices ms).map (fun run => run.result)
        = some
          (simpleFunc1 0 + simpleFunc2 1 + simpleFunc3 2 + simpleFunc4 3 + simpleFunc5 4
          + simpleFunc6 5 + simpleFunc7 6 + simpleFunc8 7)
    ∧ (∀ x : Int, functions.map (fun f => f x)
        = [x + 1, x + 2, x + 3, x + 4, x + 5, x + 6, x + 7, x + 8])
    ∧ (simpleFunc1 0 + simpleFunc2 1 + simpleFunc3 2 + simpleFunc4 3 + simpleFunc5 4
          + simpleFunc6 5 + simpleFunc7 6 + simpleFunc8 7) = 64
    ∧ (indirectBranchStress int32 8 Spec.scenarioIndices ms).map (fun run => run.result)
        = some 64 := by
  refine ⟨?_, ?_, ?_, ?_⟩
  · rfl
  · intro x; rfl
  · decide
  · rfl

/-- C3 (as stated, for the decode routine): with iteration count 0 the final accumulator of
`complexInstructionDecode` is its initial value 1.0, which is not 0. -/
theorem C3_decode_starts_at_one :
    (complexInstructionDecode exactDouble 0 0).result = exactDouble.lit 1.0
    ∧ (complexInstructionDecode exactDouble 0 0).result ≠ exactDouble.lit 0 := by
  constructor
  · rfl
  · simp [complexInstructionDecode, exactDouble]
    norm_num

/-- C3 (amended): with iteration count 0 every routine ends with its accumulator at its
initial value; that value is 0 for `instructionCacheThrashing`, `branchMispredictionStorm`
and `indirectBranchStress`, and the literal 1.0 for `complexInstructionDecode`. -/
theorem C3_zero_iterations (A : IntArith) (D : DoubleArith) (dis : Nat → Int) (ms : Int) :
    (instructionCacheThrashing A 0 ms).result = 0
    ∧ (branchMispredictionStorm A 0 dis ms).result = 0
    ∧ (indirectBranchStress A 0 dis ms).map (fun run => run.result) = some 0
    ∧ (complexInstructionDecode D 0 ms).result = D.lit 1.0 := by
  refine ⟨rfl, rfl, rfl, rfl⟩

/-- C7: with an unbounded accumulator starting at 0, the final value of
`branchMispredictionStorm` after `n` steps is the sum over the steps `i < n` of the
specification's adjustment `adj i b_i`, where `b_i` says whether the draw of step `i` is
nonzero; and a second run whose draws agree on the first `n` steps ends with the same value,
whatever the accumulator arithmetic. -/
theorem C7_branch_storm (n : Nat) (dis : Nat → Int) (ms : Int) :
    (branchMispredictionStorm exactInt n dis ms).result
        = ∑ i ∈ Finset.range n, Spec.adj i (decide (dis i ≠ 0))
    ∧ ∀ (A : IntArith) (dis2 : Nat → Int) (ms2 : Int), (∀ i, i < n → dis2 i = dis i) →
        (branchMispredictionStorm A n dis2 ms2).result
          = (branchMispredictionStorm A n dis ms).result := by
  constructor
  · induction n with
    | zero => rfl
    | succ n ih =>
      rw [branchMispredictionStorm_succ, branchBody_exact, ih, Finset.sum_range_succ]
  · intro A dis2 ms2 h
    exact branchMispredictionStorm_congr A n dis dis2 ms ms2 h

/-- Witness of C7: sixteen steps with alternating draws. -/
theorem C7_branch_storm_witness :
    (∀ i, i < 16 → (fun j : Nat => if j < 16 then (j : Int) % 2 else 1) i
        = (fun j : Nat => (j : Int) % 2) i)
    ∧ (branchMispredictionStorm exactInt 16 (fun j : Nat => (j : Int) % 2) 0).result
        = ∑ i ∈ Finset.range 16, Spec.adj i (decide ((i : Int) % 2 ≠ 0))
    ∧ (branchMispredictionStorm int32 16
          (fun j : Nat => if j < 16 then (j : Int) % 2 else 1) 5).result
        = (branchMispredictionStorm int32 16 (fun j : Nat => (j : Int) % 2) 0).result :=
  have h : ∀ i, i < 16 → (fun j : Nat => if j < 16 then (j : Int) % 2 else 1) i
      = (fun j : Nat => (j : Int) % 2) i := by
    intro i hi
    simp [hi]
  ⟨h, (C7_branch_storm 16 (fun j : Nat => (j : Int) % 2) 0).1,
    (C7_branch_storm 16 (fun j : Nat => (j : Int) % 2) 0).2 int32 _ 5 h⟩

/-- C9: at the fixed iteration count 1,000,000 the exact sum accumulated by
`instructionCacheThrashing` is 4,750,025,000,000, above `INT_MAX`; every step adds a
positive amount; the 32-bit accumulator overflows during the run (at step 21261 it holds
2147260033 and the addition of that step exceeds `INT_MAX`), so that it ends at a value
other than the exact sum; and after `16 * m` steps the exact sum is
`1216 * m * (m - 1) + 1616 * m`. -/
theorem C9_icache_overflow (ms : Int) :
    (instructionCacheThrashing exactInt 1000000 ms).result = 4750025000000
    ∧ (instructionCacheThrashing exactInt 1000000 ms).result > INT_MAX
    ∧ INT_MAX = 2 ^ 31 - 1
    ∧ (∀ (result : Int) (i : Nat), result < icacheBody exactInt result i)
    ∧ (instructionCacheThrashing int32 21261 ms).result = 2147260033
    ∧ INT_MAX < icacheBody exactInt (instructionCacheThrashing int32 21261 ms).result 21261
    ∧ (instructionCacheThrashing int32 1000000 ms).result = -208829376
    ∧ ∀ m : Nat, (instructionCacheThrashing exactInt (16 * m) ms).result
        = 1216 * (m : Int) * ((m : Int) - 1) + 1616 * (m : Int) := by
  have hmil : (instructionCacheThrashing exactInt 1000000 ms).result = 4750025000000 :=
    icache_million ms
  have h32 : (instructionCacheThrashing int32 21261 ms).result = 2147260033 := by
    rw [instructionCacheThrashing_int32, icache_21261]
    norm_num [wrap32]
  refine ⟨hmil, ?_, by norm_num [INT_MAX], ?_, h32, ?_, ?_,
    fun m => instructionCacheThrashing_block m ms⟩
  · rw [hmil]; norm_num [INT_MAX]
  · intro result i
    rw [icacheBody_eq]
    simp only [exactInt]
    have h2 : (0 : Int) ≤ ((i % 16 : Nat) : Int) := Int.ofNat_nonneg _
    have h1 : (0 : Int) ≤ (i : Int) * (((i % 16 : Nat) : Int) + 2) :=
      mul_nonneg (Int.ofNat_nonneg _) (by linarith)
    linarith
  · rw [h32]; norm_num [INT_MAX, icacheBody_eq, exactInt]
  · rw [instructionCacheThrashing_int32, hmil]; norm_num [wrap32]

/-- C10: with an unbounded accumulator starting at 0 and every drawn index in `[0, 7]`,
every lookup of `indirectBranchStress` is inside the 8-entry table, the routine has a
result, and its final accumulator is `n * (n + 1) / 2` plus the sum of the drawn indices,
hence between `n * (n + 1) / 2` and `n * (n + 1) / 2 + 7 * n`. -/
theorem C10_indirect_closed_form (n : Nat) (dis : Nat → Int) (ms : Int)
    (h : ∀ i, i < n → 0 ≤ dis i ∧ dis i ≤ 7) :
    functions.length = 8
    ∧ (∀ i, i < n → 0 ≤ dis i ∧ (dis i).toNat < functions.length)
    ∧ ∃ run, indirectBranchStress exactInt n dis ms = some run
        ∧ run.result = (n : Int) * ((n : Int) + 1) / 2 + ∑ i ∈ Finset.range n, dis i
        ∧ (n : Int) * ((n : Int) + 1) / 2 ≤ run.result
        ∧ run.result ≤ (n : Int) * ((n : Int) + 1) / 2 + 7 * (n : Int) := by
  refine ⟨rfl, ?_, ?_⟩
  · intro i hi
    have hi2 := h i hi
    refine ⟨hi2.1, ?_⟩
    have : functions.length = 8 := rfl
    omega
  · obtain ⟨run, hrun, hres⟩ := indirectBranchStress_result exactInt n dis ms h
    have hsum := indirect_exact_sum n dis
    rw [← hres] at hsum
    have hs0 : 0 ≤ ∑ i ∈ Finset.range n, dis i :=
      Finset.sum_nonneg (fun i hi => (h i (Finset.mem_range.mp hi)).1)
    have hs7 : ∑ i ∈ Finset.range n, dis i ≤ 7 * (n : Int) := by
      have := Finset.sum_le_sum (fun i hi => (h i (Finset.mem_range.mp hi)).2)
      simpa [mul_comm] using this
    refine ⟨run, hrun, ?_⟩
    generalize (n : Int) * ((n : Int) + 1) = t at hsum ⊢
    generalize ∑ i ∈ Finset.range n, dis i = s at hsum hs0 hs7 ⊢
    omega

/-- Witness of C10: three steps, each drawing the index 7. -/
theorem C10_indirect_closed_form_witness :
    (∀ i, i < 3 → 0 ≤ (fun _ : Nat => (7 : Int)) i ∧ (fun _ : Nat => (7 : Int)) i ≤ 7)
    ∧ ∃ run, indirectBranchStress exactInt 3 (fun _ => 7) 0 = some run
        ∧ run.result = ((3 : Nat) : Int) * (((3 : Nat) : Int) + 1) / 2
            + ∑ i ∈ Finset.range 3, (fun _ : Nat => (7 : Int)) i
        ∧ ((3 : Nat) : Int) * (((3 : Nat) : Int) + 1) / 2 ≤ run.result
        ∧ run.result ≤ ((3 : Nat) : Int) * (((3 : Nat) : Int) + 1) / 2 + 7 * ((3 : Nat) : Int) :=
  have h : ∀ i, i < 3 → 0 ≤ (fun _ : Nat => (7 : Int)) i ∧ (fun _ : Nat => (7 : Int)) i ≤ 7 := by
    intro i _
    exact ⟨by norm_num, by norm_num⟩
  ⟨h, (C10_indirect_closed_form 3 (fun _ => 7) 0 h).2.2⟩

/-- C4: a full run of `main` has an output; the lines of it containing `completed in` are
exactly the completion messages of the four routines in the order
`instructionCacheThrashing`, `branchMispredictionStorm`, `complexInstructionDecode`,
`indirectBranchStress`, repeated for the repetitions 0 .. 99, so there are exactly 400 of
them; and exactly 400 lines start with `Result: `. -/
theorem C4_main_output (D : DoubleArith) (env : FEBottleneck.Env) :
    ∃ out, FEBottleneck.main D env = some out
      ∧ out.filter Spec.isCompleted = (List.range 100).flatMap (Spec.completionCycle env)
      ∧ (out.filter Spec.isCompleted).length = 400
      ∧ (out.filter Spec.isResult).length = 400 := by
  obtain ⟨out, hout, hc, hr⟩ := mainWith_some 100 FEBottleneck.sourceCounts D env
  refine ⟨out, hout, hc, ?_, hr⟩
  rw [hc, length_completionCycles]

/-- C5 (as stated): one invocation of `instructionCacheThrashing` (iteration count 16,
elapsed time 0 ms) writes four lines, not two: besides the completion message and the value
line there are the `Running ...` line before them and an empty line after them. -/
theorem C5_four_lines_not_two :
    (instructionCacheThrashing int32 16 0).output
      = [ "Running instruction cache thrashing...".toList,
          "I-cache thrashing completed in 0ms".toList,
          "Result: 1616".toList,
          "".toList ]
    ∧ (instructionCacheThrashing int32 16 0).output.length ≠ 2 := by
  constructor
  · rfl
  · decide

/-- C5 (amended): every invocation of any of the four routines writes exactly four lines: a
`Running ...` line, a completion message with the elapsed time in whole milliseconds, a line
`Result: ` with the final accumulated value, and an empty line. -/
theorem C5_routine_output (A : IntArith) (D : DoubleArith) (n : Nat) (dis : Nat → Int)
    (ms : Int) :
    (instructionCacheThrashing A n ms).output
        = [ "Running instruction cache thrashing...".toList,
            "I-cache thrashing completed in ".toList ++ showInt ms ++ "ms".toList,
            "Result: ".toList ++ showInt (instructionCacheThrashing A n ms).result,
            [] ]
    ∧ (branchMispredictionStorm A n dis ms).output
        = [ "Running branch misprediction storm...".toList,
            "Branch misprediction storm completed in ".toList ++ showInt ms ++ "ms".toList,
            "Result: ".toList ++ showInt (branchMispredictionStorm A n dis ms).result,
            [] ]
    ∧ (complexInstructionDecode D n ms).output
        = [ "Running complex instruction decode pressure...".toList,
            "Complex decode pressure completed in ".toList ++ showInt ms ++ "ms".toList,
            "Result: ".toList ++ D.text (complexInstructionDecode D n ms).result,
            [] ]
    ∧ (∀ run, indirectBranchStress A n dis ms = some run →
        run.output
          = [ "Running indirect branch stress...".toList,
              "Indirect branch stress completed in ".toList ++ showInt ms ++ "ms".toList,
              "Result: ".toList ++ showInt run.result,
              [] ])
    ∧ (instructionCacheThrashing A n ms).output.length = 4
    ∧ (branchMispredictionStorm A n dis ms).output.length = 4
    ∧ (complexInstructionDecode D n ms).output.length = 4
    ∧ (∀ run, indirectBranchStress A n dis ms = some run → run.output.length = 4) := by
  have hind : ∀ run, indirectBranchStress A n dis ms = some run →
      run.output
        = [ "Running indirect branch stress...".toList,
            "Indirect branch stress completed in ".toList ++ showInt ms ++ "ms".toList,
            "Result: ".toList ++ showInt run.result,
            [] ] := by
    intro run hrun
    unfold indirectBranchStress at hrun
    split at hrun
    · cases hrun; rfl
    · cases hrun
  refine ⟨rfl, rfl, rfl, hind, rfl, rfl, rfl, ?_⟩
  intro run hrun
  rw [hind run hrun]
  rfl

/-- Witness of C5: the indirect-branch routine with three steps drawing the index 2 has a
result, and its output is the four lines. -/
theorem C5_routine_output_witness :
    ∃ run, indirectBranchStress int32 3 (fun _ => 2) 7 = some run
      ∧ run.output
          = [ "Running indirect branch stress...".toList,
              "Indirect branch stress completed in ".toList ++ showInt 7 ++ "ms".toList,
              "Result: ".toList ++ showInt run.result,
              [] ]
      ∧ run.output.length = 4 :=
  ⟨{ result := 12
     output :=
       [ "Running indirect branch stress...".toList,
         "Indirect branch stress completed in 7ms".toList,
         "Result: 12".toList,
         [] ] },
    rfl,
    (C5_routine_output int32 exactDouble 3 (fun _ => 2) 7).2.2.2.1 _ rfl,
    (C5_routine_output int32 exactDouble 3 (fun _ => 2) 7).2.2.2.2.2.2.2 _ rfl⟩

/-- C6 (the code at its only run): `addNumbers` returns 55, so `main` prints 55 after the text
`Sum of numbers 1 to 10 plus 5 is:`, whereas the sum of the integers 1 to 10 plus 5 is 60. -/
theorem C6_program_prints_55 :
    Program.addNumbers = 55
    ∧ Program.main = ["Sum of numbers 1 to 10 plus 5 is: 55".toList]
    ∧ (1 + 2 + 3 + 4 + 5 + 6 + 7 + 8 + 9 + 10 : Int) + 5 = 60
    ∧ Program.addNumbers ≠ (1 + 2 + 3 + 4 + 5 + 6 + 7 + 8 + 9 + 10 : Int) + 5 := by
  refine ⟨by decide, by rfl, by decide, by decide⟩

/-- C8: on a buffer of capacity 10 whose write fails outside `0 .. 9`, the fill loop of
`buffer_overflow.c` does not complete: it fails at index 10. The loop issues writes at
exactly the indices 0 .. 15; the six indices 10 .. 15 are at or beyond the capacity, and
the first ten writes succeed. -/
theorem C8_buffer_overrun :
    (BufferOverflow.malloc 10).length = 10
    ∧ BufferOverflow.fill = Except.error 10
    ∧ BufferOverflow.fillWrites.map Prod.fst
        = [0, 1, 2, 3, 4, 5, 6, 7, 8, 9, 10, 11, 12, 13, 14, 15]
    ∧ (BufferOverflow.fillWrites.map Prod.fst).filter
          (fun i => decide ((BufferOverflow.malloc 10).length ≤ i))
        = [10, 11, 12, 13, 14, 15]
    ∧ ((BufferOverflow.fillWrites.map Prod.fst).filter
          (fun i => decide ((BufferOverflow.malloc 10).length ≤ i))).length = 6
    ∧ (BufferOverflow.fillWrites.take 10).foldlM BufferOverflow.store (BufferOverflow.malloc 10)
        = Except.ok ("ABCDEFGHIJ".toList.map some) := by
  refine ⟨by decide, by rfl, by decide, by decide, by decide, by rfl⟩

end Labs
